import Mathlib

/-!
Verification development for the survey encode-clean-analyze pipeline
(`create_clean_csv.py`, `analysis_2_spearman.py`, `analysis_3_kruskal_fisher.py`).

Shallow embedding conventions:
* Python strings are `List Char`; `str.strip()` is `pyStrip`, `str.lower()` is
  `pyLower` (ASCII fragment, which covers every value the scripts handle).
* Missing values (`None` in the clean table, `NaN` after `pandas` reads it)
  are `Option.none` at the table level.
* Float results of the statistics layer are modelled by `MFloat`: `nan`, or an
  exact algebraic value `s / √d` (`d = 1` for plain rationals).  IEEE
  comparisons with a `nan` operand are false, which `MFloat` reproduces.
* Transcendental tail functions (Student t, χ²) are not exactly
  representable; they enter only as explicit function parameters (`pv`, `csf`)
  and every theorem below is independent of them, except for the exactly
  representable point `chi2.sf 0 df = 1`, which is pinned.
-/

/-- Python strings, as lists of characters. -/
abbrev PyStr := List Char

/-- Whitespace recognised by Python's `str.strip()` (ASCII fragment). -/
def isPySpace (c : Char) : Bool :=
  c == ' ' || c == '\t' || c == '\n' || c == '\r' || c == '\x0b' || c == '\x0c'

/-- Upper-to-lower case table for ASCII letters, used by `str.lower()`. -/
def LOWER_TABLE : List (Char × Char) :=
  [('A', 'a'), ('B', 'b'), ('C', 'c'), ('D', 'd'), ('E', 'e'), ('F', 'f'),
   ('G', 'g'), ('H', 'h'), ('I', 'i'), ('J', 'j'), ('K', 'k'), ('L', 'l'),
   ('M', 'm'), ('N', 'n'), ('O', 'o'), ('P', 'p'), ('Q', 'q'), ('R', 'r'),
   ('S', 's'), ('T', 't'), ('U', 'u'), ('V', 'v'), ('W', 'w'), ('X', 'x'),
   ('Y', 'y'), ('Z', 'z')]

/-- Python `str.lower()` on one character (ASCII fragment). -/
def pyLowerChar (c : Char) : Char :=
  (LOWER_TABLE.lookup c).getD c

/-- Python `str.lower()` (ASCII fragment). -/
def pyLower (l : PyStr) : PyStr :=
  l.map pyLowerChar

/-- Python `str.strip()`: drop leading and trailing whitespace. -/
def pyStrip (l : PyStr) : PyStr :=
  List.rdropWhile isPySpace (List.dropWhile isPySpace l)

/-- The normalisation `val.strip().lower()` applied by `encode`. -/
def pyNormalize (l : PyStr) : PyStr :=
  pyLower (pyStrip l)

/-- Source `encode(val, mapping)`: `mapping.get(val.strip().lower(), None)`.
All call sites in `create_clean_csv.py` leave `default=None`. -/
def encode (val : PyStr) (mapping : List (PyStr × ℤ)) : Option ℤ :=
  mapping.lookup (pyNormalize val)

/-- Source `noise_spike(val)`: `0 if val.strip().lower() == "no" else 1`. -/
def noise_spike (val : PyStr) : ℤ :=
  if pyNormalize val == "no".toList then 0 else 1

/-- Q7 concentration-impact encoding table from `create_clean_csv.py`. -/
def Q7_MAP : List (PyStr × ℤ) :=
  [("not at all".toList, 1), ("neutral".toList, 2),
   ("slightly distracting".toList, 3), ("moderately distracting".toList, 4),
   ("highly distracting".toList, 5), ("severely affects rest quality".toList, 6)]

/-- Q11 quality-of-life encoding table. -/
def Q11_MAP : List (PyStr × ℤ) :=
  [("improves significantly".toList, 1), ("neutral".toList, 2),
   ("reduces slightly".toList, 3), ("reduces significantly".toList, 4)]

/-- Age-group encoding table. -/
def AGE_MAP : List (PyStr × ℤ) :=
  [("18 – 25".toList, 1), ("26 – 40".toList, 2), ("41 – 59".toList, 3),
   ("60+".toList, 4)]

/-- Residency-duration encoding table. -/
def DURATION_MAP : List (PyStr × ℤ) :=
  [("less than 1 year".toList, 1), ("1 - 5 years".toList, 2),
   ("5 - 10 years".toList, 3), ("more than 10 years".toList, 4)]

/-- Floor-range encoding table. -/
def FLOOR_MAP : List (PyStr × ℤ) :=
  [("low rise (floors 1–5)".toList, 1), ("mid rise (floors 6–10)".toList, 2),
   ("high rise (floors 11+)".toList, 3)]

/-- Community-connection encoding table (note the deliberate coarsening:
"maybe" and "neutral" share code 1). -/
def COMMUNITY_MAP : List (PyStr × ℤ) :=
  [("no".toList, 0), ("neutral".toList, 1), ("maybe".toList, 1),
   ("yes".toList, 2), ("yes, i feel a strong connection.".toList, 2),
   ("yes, very strong".toList, 2)]

/-- Python `str.isdigit()` (ASCII fragment): nonempty and all decimal digits. -/
def py_isdigit (l : PyStr) : Bool :=
  !l.isEmpty && l.all fun c => decide ('0' ≤ c) && decide (c ≤ '9')

/-- Value of a string of decimal digits (what Python `int` returns on them). -/
def digitsVal (l : PyStr) : ℕ :=
  l.foldl (fun a c => 10 * a + (c.toNat - 48)) 0

/-- Encoding of the two direct numeric-scale answers (Q4 and Q8):
`int(q) if q.isdigit() else None` applied to the stripped cell. -/
def q4_encode (raw : PyStr) : Option ℤ :=
  let q := pyStrip raw
  if py_isdigit q then some ((digitsVal q : ℤ)) else none

/-- Claim-side notion for C5, following the claim's words: the stripped text
"parses as an integer (including signed integer strings)", i.e. Python
`int()` on optional sign followed by digits. -/
def specIntParse (l : PyStr) : Option ℤ :=
  match l with
  | '-' :: t => if py_isdigit t then some (-(digitsVal t : ℤ)) else none
  | '+' :: t => if py_isdigit t then some ((digitsVal t : ℤ)) else none
  | _ => if py_isdigit l then some ((digitsVal l : ℤ)) else none

/-- One raw survey row, keyed by the twelve question columns. -/
structure RawRecord where
  site : PyStr
  age : PyStr
  dur : PyStr
  floor : PyStr
  q4 : PyStr
  q5 : PyStr
  q6 : PyStr
  q7 : PyStr
  q8 : PyStr
  q9 : PyStr
  q10 : PyStr
  q11 : PyStr
deriving DecidableEq, Repr

/-- One clean row, with the exact fields (and field order) of the dict built
in `create_clean_csv.main`. -/
structure CleanRecord where
  respondent_id : ℕ
  site : PyStr
  age_group : PyStr
  age_numeric : Option ℤ
  residency_duration : PyStr
  residency_numeric : Option ℤ
  floor_level : PyStr
  floor_numeric : Option ℤ
  Q4_noise_rating : Option ℤ
  Q5_noise_sources : PyStr
  Q6_noise_spike : ℤ
  Q6_spike_raw : PyStr
  Q7_concentration_raw : PyStr
  Q7_concentration : Option ℤ
  Q8_air_quality : Option ℤ
  Q9_convenience_raw : PyStr
  Q10_community_raw : PyStr
  Q10_community : Option ℤ
  Q11_QoL_raw : PyStr
  Q11_QoL : Option ℤ
deriving DecidableEq, Repr

/-- Body of the encoder loop: one `RawRecord` (with `idx` from
`enumerate(..., start=1)`) to one `CleanRecord`. -/
def clean_record (idx : ℕ) (row : RawRecord) : CleanRecord :=
  let site := pyStrip row.site
  let age_raw := pyStrip row.age
  let dur_raw := pyStrip row.dur
  let floor_raw := pyStrip row.floor
  let q5 := pyStrip row.q5
  let q6_raw := pyStrip row.q6
  let q7_raw := pyStrip row.q7
  let q9_raw := pyStrip row.q9
  let q10_raw := pyStrip row.q10
  let q11_raw := pyStrip row.q11
  { respondent_id := idx
    site := site
    age_group := age_raw
    age_numeric := encode age_raw AGE_MAP
    residency_duration := dur_raw
    residency_numeric := encode dur_raw DURATION_MAP
    floor_level := floor_raw
    floor_numeric := encode floor_raw FLOOR_MAP
    Q4_noise_rating := q4_encode row.q4
    Q5_noise_sources := q5
    Q6_noise_spike := noise_spike q6_raw
    Q6_spike_raw := q6_raw
    Q7_concentration_raw := q7_raw
    Q7_concentration := encode q7_raw Q7_MAP
    Q8_air_quality := q4_encode row.q8
    Q9_convenience_raw := q9_raw
    Q10_community_raw := q10_raw
    Q10_community := encode q10_raw COMMUNITY_MAP
    Q11_QoL_raw := q11_raw
    Q11_QoL := encode q11_raw Q11_MAP }

/-- The full clean table: one `CleanRecord` per raw row, ids `1..n`. -/
def cleanTable (rows : List RawRecord) : List CleanRecord :=
  rows.enum.map fun p => clean_record (p.1 + 1) p.2

/-- Key order of the clean-row dict, as written to `survey_clean.csv`. -/
def CLEAN_FIELDNAMES : List String :=
  ["respondent_id", "site", "age_group", "age_numeric", "residency_duration",
   "residency_numeric", "floor_level", "floor_numeric", "Q4_noise_rating",
   "Q5_noise_sources", "Q6_noise_spike", "Q6_spike_raw",
   "Q7_concentration_raw", "Q7_concentration", "Q8_air_quality",
   "Q9_convenience_raw", "Q10_community_raw", "Q10_community", "Q11_QoL_raw",
   "Q11_QoL"]

/-- Result of `create_clean_csv.main` after the read loop: `none` models the
uncaught `IndexError` at `rows_out[0]` (deriving the CSV header from the
first clean row) on an empty row list — it is raised before the output file
is opened, so nothing is written; otherwise the header and rows that are
written out. -/
def encoder_main (rows : List RawRecord) : Option (List String × List CleanRecord) :=
  let rows_out := cleanTable rows
  match rows_out.head? with
  | none => none
  | some _ => some (CLEAN_FIELDNAMES, rows_out)

/-- Model of the float values flowing through the statistics layer: `nan`, or
the exact algebraic value `s / √d` (intended `0 < d`; `d = 1` gives plain
rationals, the square root enters through Pearson's denominator).  Every
comparison with `nan` is false, as for IEEE floats. -/
inductive MFloat where
  | nan : MFloat
  | sdiv (s d : ℚ) : MFloat
deriving DecidableEq, Repr

/-- Plain rational as an `MFloat`. -/
def MFloat.fin (q : ℚ) : MFloat := .sdiv q 1

/-- Float comparison `x < q` (`q` rational, `x` possibly `nan`). -/
def MFloat.lt (x : MFloat) (q : ℚ) : Bool :=
  match x with
  | .nan => false
  | .sdiv s d =>
    if 0 < q then decide (s < 0) || decide (s ^ 2 < q ^ 2 * d)
    else decide (s < 0) && decide (q ^ 2 * d < s ^ 2)

/-- Float comparison `x > q`. -/
def MFloat.gt (x : MFloat) (q : ℚ) : Bool :=
  match x with
  | .nan => false
  | .sdiv s d =>
    if 0 ≤ q then decide (0 < s) && decide (q ^ 2 * d < s ^ 2)
    else decide (0 ≤ s) || decide (s ^ 2 < q ^ 2 * d)

/-- Float comparison `x ≥ q`. -/
def MFloat.ge (x : MFloat) (q : ℚ) : Bool :=
  match x with
  | .nan => false
  | .sdiv s d =>
    if 0 ≤ q then decide (0 ≤ s) && decide (q ^ 2 * d ≤ s ^ 2)
    else decide (0 ≤ s) || decide (s ^ 2 ≤ q ^ 2 * d)

/-- Float absolute value. -/
def MFloat.abs : MFloat → MFloat
  | .nan => .nan
  | .sdiv s d => .sdiv |s| d

/-- Content of the string built by `interpret` in `analysis_2_spearman.py`:
strength and direction words, the significance clause, and whether the
small-sample caveat text is attached. -/
structure Interp where
  strength : String
  direction : String
  significant : Bool
  caveat : Bool
deriving DecidableEq, Repr

/-- Source `interpret(rho, p, n)` from `analysis_2_spearman.py` (lines
75-87).  The numeric thresholds 0.7 / 0.4 / 0.05 are taken exactly; `n`
appears only inside the caveat text, not in any condition. -/
def interpret (rho p : MFloat) (n : ℕ) : Interp :=
  let _ := n
  let sig := p.lt (1 / 20)
  { strength :=
      if (rho.abs).ge (7 / 10) then "strong"
      else if (rho.abs).ge (2 / 5) then "moderate"
      else "weak"
    direction := if rho.gt 0 then "positive" else "negative"
    significant := sig
    caveat := !sig }

/-- Content of the string built by `kw_interpret(p, n_groups, n_total)` in
`analysis_3_kruskal_fisher.py` (lines 68-72). -/
structure KwInterp where
  significant : Bool
  caveat : Bool
deriving DecidableEq, Repr

/-- Source `kw_interpret`: significance from `p < 0.05`, caveat text attached
whenever `n_total < 30`. -/
def kw_interpret (p : MFloat) (n_groups n_total : ℕ) : KwInterp :=
  let _ := n_groups
  { significant := p.lt (1 / 20)
    caveat := decide (n_total < 30) }

/-- Average rank (1-based, ties averaged) of value `x` within sample `l`,
as `scipy.stats.rankdata` assigns it. -/
def rankOf (l : List ℚ) (x : ℚ) : ℚ :=
  ((l.countP fun y => decide (y < x) : ℕ) : ℚ) +
    (((l.countP fun y => decide (y = x) : ℕ) : ℚ) + 1) / 2

/-- Ranks of a sample. -/
def ranksL (l : List ℚ) : List ℚ :=
  l.map (rankOf l)

/-- The quantity `n·Σx² − (Σx)²` (n² times the variance of `l`). -/
def varTerm (l : List ℚ) : ℚ :=
  (l.length : ℚ) * (l.map fun x => x ^ 2).sum - (l.sum) ^ 2

/-- The quantity `n·Σxy − Σx·Σy` (n² times the covariance). -/
def covTerm (xs ys : List ℚ) : ℚ :=
  (xs.length : ℚ) * (List.zipWith (fun a b => a * b) xs ys).sum - xs.sum * ys.sum

/-- Spearman's coefficient as `scipy.stats.spearmanr` computes it: Pearson
correlation of the rank sequences.  A zero denominator (sample shorter than
2, or a constant sample) yields `nan`; otherwise the exact value
`cov / √(varx · vary)`. -/
def spearman_rho (xs ys : List ℚ) : MFloat :=
  let rx := ranksL xs
  let ry := ranksL ys
  let d := varTerm rx * varTerm ry
  if d = 0 then .nan else .sdiv (covTerm rx ry) d

/-- Two-sided p-value of the Spearman t-approximation.  `nan` coefficient or
`dof = n − 2 ≤ 0` propagates `nan`; a perfect correlation gives an infinite
t and exact p = 0; any other value is `pv s d n`, the (transcendental)
Student-t tail supplied as a parameter — every theorem below is independent
of `pv`. -/
def p_spearman (pv : ℚ → ℚ → ℕ → ℚ) (rho : MFloat) (n : ℕ) : MFloat :=
  match rho with
  | .nan => .nan
  | .sdiv s d =>
    if n ≤ 2 then .nan
    else if s ^ 2 = d then .fin 0
    else .fin (pv s d n)

/-- Outcome interface for one correlation analysis.  `insufficientData` is
the distinct outcome the spec requires for degenerate inputs; the code's
analysis below never produces it (it has no such branch), which is exactly
what claim C4 is about. -/
inductive SpearOutcome where
  | insufficientData : SpearOutcome
  | report (rho p : MFloat) (n : ℕ) (itp : Interp) : SpearOutcome
deriving DecidableEq, Repr

/-- Whether an outcome is the distinct insufficient-data outcome. -/
def SpearOutcome.isInsufficient : SpearOutcome → Bool
  | .insufficientData => true
  | .report _ _ _ _ => false

/-- Row selection `df[[xvar, yvar]].dropna()`: the pairs with both fields
present. -/
def spearman_sub (tbl : List CleanRecord) (gx gy : CleanRecord → Option ℤ) :
    List (ℚ × ℚ) :=
  tbl.filterMap fun r =>
    match gx r, gy r with
    | some a, some b => some (((a : ℚ), (b : ℚ)))
    | _, _ => none

/-- One iteration of the `for xvar, yvar, ... in PAIRS` loop of
`analysis_2_spearman.py` (lines 140-143): dropna, `stats.spearmanr`, then
`interpret` — unconditionally; there is no insufficient-data branch. -/
def spearman_analysis (pv : ℚ → ℚ → ℕ → ℚ) (tbl : List CleanRecord)
    (gx gy : CleanRecord → Option ℤ) : SpearOutcome :=
  let sub := spearman_sub tbl gx gy
  let xs := sub.map Prod.fst
  let ys := sub.map Prod.snd
  let rho := spearman_rho xs ys
  let p := p_spearman pv rho sub.length
  .report rho p sub.length (interpret rho p sub.length)

/-- Fixed stand-in for the Student-t tail parameter, used only to state
closed concrete-input theorems; no theorem depends on its values. -/
def pv0 : ℚ → ℚ → ℕ → ℚ := fun _ _ _ => 0

/-- Fixed site presentation order from `analysis_3_kruskal_fisher.py`. -/
def site_order : List PyStr :=
  ["Waterloo Centre".toList, "Cheng Yan Court".toList, "Albert Centre".toList,
   "Bras Basah Complex".toList]

/-- Fixed floor presentation order (raw cell spelling, with en dashes). -/
def floor_order : List PyStr :=
  ["Low Rise (Floors 1–5)".toList, "Mid Rise (Floors 6–10)".toList,
   "High Rise (Floors 11+)".toList]

/-- Outcome values of one Kruskal-Wallis group:
`df[df[groupcol] == cat][valcol].dropna().tolist()`. -/
def kw_group (tbl : List CleanRecord) (groupOf : CleanRecord → PyStr)
    (valOf : CleanRecord → Option ℤ) (cat : PyStr) : List ℚ :=
  tbl.filterMap fun r =>
    if groupOf r == cat then (valOf r).map fun z => (z : ℚ) else none

/-- Source `floor_groups` (lines 154-157): one group per floor category,
then the dict comprehension `{k: v ... if v}` drops the empty ones. -/
def floor_groups (tbl : List CleanRecord) : List (PyStr × List ℚ) :=
  (floor_order.map fun fl =>
    (fl, kw_group tbl (·.floor_level) (·.Q4_noise_rating) fl)).filter
    fun p => !p.2.isEmpty

/-- Source `site_noise_groups` (lines 169-170): one group per site — note
there is no `if v` filter, empty site groups are kept. -/
def site_noise_groups (tbl : List CleanRecord) : List (PyStr × List ℚ) :=
  site_order.map fun s => (s, kw_group tbl (·.site) (·.Q4_noise_rating) s)

/-- Source `site_qol_groups` (lines 181-182), again without an empty filter. -/
def site_qol_groups (tbl : List CleanRecord) : List (PyStr × List ℚ) :=
  site_order.map fun s => (s, kw_group tbl (·.site) (·.Q11_QoL) s)

/-- Argument list of `stats.kruskal(*floor_groups.values())` for test A. -/
def kw_input_floor (tbl : List CleanRecord) : List (List ℚ) :=
  (floor_groups tbl).map Prod.snd

/-- Argument list of `stats.kruskal(*site_noise_groups.values())` (test B). -/
def kw_input_siteNoise (tbl : List CleanRecord) : List (List ℚ) :=
  (site_noise_groups tbl).map Prod.snd

/-- Argument list of `stats.kruskal(*site_qol_groups.values())` (test C). -/
def kw_input_siteQoL (tbl : List CleanRecord) : List (List ℚ) :=
  (site_qol_groups tbl).map Prod.snd

/-- Tie-correction denominator `1 − Σ(t³−t)/(N³−N)` over the combined
sample. -/
def tieCorrection (all : List ℚ) : ℚ :=
  let N : ℚ := (all.length : ℚ)
  1 - ((all.dedup.map fun v =>
        let t : ℚ := ((all.countP fun y => decide (y = v) : ℕ) : ℚ)
        t ^ 3 - t).sum) / (N ^ 3 - N)

/-- Kruskal-Wallis H statistic as `scipy.stats.kruskal` computes it:
`H = (12/(N(N+1)) · Σ Rᵢ²/nᵢ − 3(N+1)) / tieCorrection`.  An empty group
(0/0 in `Rᵢ²/nᵢ`), a combined sample of length ≤ 1, or a zero tie
correction (all values equal) produces `nan`, matching the NumPy float
behaviour. -/
def kruskal_H (groups : List (List ℚ)) : MFloat :=
  if groups.any (·.isEmpty) then .nan
  else
    let all := groups.flatten
    let N : ℚ := (all.length : ℚ)
    if all.length ≤ 1 then .nan
    else
      let sumterm := (groups.map fun g =>
        ((g.map (rankOf all)).sum) ^ 2 / (g.length : ℚ)).sum
      let hraw := 12 / (N * (N + 1)) * sumterm - 3 * (N + 1)
      let corr := tieCorrection all
      if corr = 0 then .nan else .fin (hraw / corr)

/-- Call interface of `stats.kruskal`: `none` models the `ValueError` scipy
raises when given fewer than two groups; otherwise the H statistic. -/
def stats_kruskal (groups : List (List ℚ)) : Option MFloat :=
  if groups.length < 2 then none else some (kruskal_H groups)

/-- The χ² survival function value for the Kruskal-Wallis p-value.
`chi2.sf(0, df) = 1` exactly; every other value is transcendental and
enters through the parameter `csf`, on which no theorem below depends. -/
def kw_p (csf : ℚ → ℕ → ℚ) (h : MFloat) (df : ℕ) : MFloat :=
  match h with
  | .nan => .nan
  | .sdiv s _ => if s = 0 then .fin 1 else .fin (csf s df)

/-- Fixed stand-in for the χ² tail parameter in closed concrete-input
theorems; no theorem depends on its values. -/
def csf0 : ℚ → ℕ → ℚ := fun _ _ => 0

/-- The pair list `itertools.combinations(site_order, 2)` (each element with
every later one, in order). -/
def combos : List PyStr → List (PyStr × PyStr)
  | [] => []
  | a :: t => (t.map fun b => (a, b)) ++ combos t

/-- The Mann-Whitney post-hoc loop of `analysis_3_kruskal_fisher.py` (lines
192-208): the pairs on which `mannwhitneyu` is actually called.  The only
guard in the source is `len(g1) >= 2 and len(g2) >= 2`; the omnibus
Kruskal-Wallis p-value is never consulted, although the module docstring and
the section comment announce "if KW significant". -/
def posthoc_performed (groups : List (PyStr × List ℚ)) : List (PyStr × PyStr) :=
  (combos site_order).filter fun pr =>
    decide (2 ≤ ((groups.lookup pr.1).getD []).length) &&
      decide (2 ≤ ((groups.lookup pr.2).getD []).length)

/-- Odds ratio value as `scipy.stats.fisher_exact` reports it: a finite
rational, or `inf` when an off-diagonal cell is zero. -/
inductive OddsVal where
  | val (q : ℚ) : OddsVal
  | inf : OddsVal
deriving DecidableEq, Repr

/-- Cell `(i, j)` of a contingency table (row-major list of rows). -/
def ctCell (ct : List (List ℕ)) (i j : ℕ) : ℕ :=
  ((ct.get? i).bind fun row => row.get? j).getD 0

/-- Number of rows of the table. -/
def ctRows (ct : List (List ℕ)) : ℕ := ct.length

/-- Number of columns of the table (length of the first row, as for a
rectangular `numpy` array). -/
def ctCols (ct : List (List ℕ)) : ℕ :=
  ((ct.head?).map List.length).getD 0

/-- Odds ratio of a 2×2 table, following scipy: finite `ad/(bc)` when both
off-diagonal cells are positive, `inf` otherwise. -/
def odds_of (ct : List (List ℕ)) : OddsVal :=
  let a := ctCell ct 0 0
  let b := ctCell ct 0 1
  let c := ctCell ct 1 0
  let d := ctCell ct 1 1
  if 0 < b ∧ 0 < c then .val (((a * d : ℕ) : ℚ) / ((b * c : ℕ) : ℚ)) else .inf

/-- Exact two-sided Fisher p-value of a 2×2 table: the total hypergeometric
probability of every table (same margins) whose point probability does not
exceed the observed one.  (scipy compares with a tiny relative tolerance to
absorb float error; in exact arithmetic the comparison is `≤`.) -/
def fisher_p (ct : List (List ℕ)) : ℚ :=
  let a := ctCell ct 0 0
  let b := ctCell ct 0 1
  let c := ctCell ct 1 0
  let d := ctCell ct 1 1
  let n := a + b + c + d
  let r1 := a + b
  let c1 := a + c
  let pmf : ℕ → ℚ := fun k =>
    ((r1.choose k * (n - r1).choose (c1 - k) : ℕ) : ℚ) / ((n.choose c1 : ℕ) : ℚ)
  (((List.range (min r1 c1 + 1)).filter fun k => decide (pmf k ≤ pmf a)).map
    pmf).sum

/-- Pearson χ² statistic of a contingency table, with expected counts
`rowsum·colsum/N` (no continuity correction; the 2×2 case never reaches the
χ² branch).  scipy raises on a zero expected cell, a case outside every use
below. -/
def chisq_stat (ct : List (List ℕ)) : ℚ :=
  let rowsums := ct.map fun row => ((row.sum : ℕ) : ℚ)
  let colsums := (List.range (ctCols ct)).map fun j =>
    ((ct.map fun row => (row.get? j).getD 0).sum : ℚ)
  let N : ℚ := ((ct.map List.sum).sum : ℚ)
  ((List.range (ctRows ct)).map fun i =>
    ((List.range (ctCols ct)).map fun j =>
      let o : ℚ := ((ctCell ct i j : ℕ) : ℚ)
      let e : ℚ := (rowsums.get? i).getD 0 * (colsums.get? j).getD 0 / N
      (o - e) ^ 2 / e).sum).sum

/-- Result record of `run_fishers` in `analysis_3_kruskal_fisher.py` (lines
219-241): the 2×2 branch reports the exact p-value and the odds ratio; the
other branch reports the χ² statistic with its degrees of freedom, returns
`None` for the odds ratio, and always prints the "interpret with caution"
approximation caveat (`flagged`). -/
inductive CtResult where
  | fisher (odds : OddsVal) (p : ℚ) : CtResult
  | chiApprox (stat : ℚ) (df : ℕ) (flagged : Bool) : CtResult
deriving DecidableEq, Repr

/-- Whether the result carries an odds ratio (the Python function returns a
non-`None` first component exactly in the Fisher branch). -/
def CtResult.reportsOdds : CtResult → Bool
  | .fisher _ _ => true
  | .chiApprox _ _ _ => false

/-- Whether the result is flagged as an approximation. -/
def CtResult.isFlaggedApprox : CtResult → Bool
  | .fisher _ _ => false
  | .chiApprox _ _ fl => fl

/-- Source `run_fishers(ct_df, label)`: Fisher's exact test iff the table
shape is exactly (2, 2), otherwise `chi2_contingency` on the same table with
the printed caution caveat. -/
def run_fishers (ct : List (List ℕ)) : CtResult :=
  if ctRows ct = 2 ∧ ctCols ct = 2 then .fisher (odds_of ct) (fisher_p ct)
  else .chiApprox (chisq_stat ct) ((ctRows ct - 1) * (ctCols ct - 1)) true

/-- Whether a sample is constant (used to state claim C4's degenerate case). -/
def allEqual (l : List ℚ) : Bool :=
  match l with
  | [] => true
  | a :: t => t.all fun x => decide (x = a)

/-- Raw row with every cell blank (fixture for concrete-input theorems). -/
def blankRaw : RawRecord :=
  { site := [], age := [], dur := [], floor := [], q4 := [], q5 := [],
    q6 := [], q7 := [], q8 := [], q9 := [], q10 := [], q11 := [] }

/-- Raw row with a fully valid answer in every column (fixture). -/
def sampleRaw : RawRecord :=
  { site := "Waterloo Centre".toList, age := "18 – 25".toList,
    dur := "1 - 5 years".toList, floor := "Low Rise (Floors 1–5)".toList,
    q4 := "7".toList, q5 := "traffic".toList, q6 := "No".toList,
    q7 := "Neutral".toList, q8 := "8".toList, q9 := "fine".toList,
    q10 := "Yes".toList, q11 := "Neutral".toList }

/-- Fixture: raw row with the given site and Q4 answer, other cells blank. -/
def rawSiteQ4 (site q4 : String) : RawRecord :=
  { blankRaw with site := site.toList, q4 := q4.toList }

/-- Fixture: raw row with only a Q7 answer. -/
def rawQ7 (q7 : String) : RawRecord :=
  { blankRaw with q7 := q7.toList }

/-- Fixture: raw row with only a Q4 answer. -/
def rawQ4 (q4 : String) : RawRecord :=
  { blankRaw with q4 := q4.toList }

/-- Clean table whose Q4 column is entirely missing while Q7 is present:
the degenerate correlation input for claim C4 (effective n = 0). -/
def T_allMissing : List CleanRecord :=
  cleanTable [rawQ7 "Neutral", rawQ7 "Neutral", rawQ7 "Neutral"]

/-- Clean table whose rows cover only one site -- fixture for claim C6. -/
def T_oneSite : List CleanRecord :=
  cleanTable [rawSiteQ4 "Waterloo Centre" "3", rawSiteQ4 "Waterloo Centre" "4"]

/-- Clean table with two records per site and identical Q4 samples (1 and 2
at every site): the omnibus Kruskal-Wallis H is exactly 0, hence
p = chi2.sf(0, 3) = 1, maximally non-significant.  Fixture for claim C3. -/
def T_flat : List CleanRecord :=
  cleanTable
    [rawSiteQ4 "Waterloo Centre" "1", rawSiteQ4 "Waterloo Centre" "2",
     rawSiteQ4 "Cheng Yan Court" "1", rawSiteQ4 "Cheng Yan Court" "2",
     rawSiteQ4 "Albert Centre" "1", rawSiteQ4 "Albert Centre" "2",
     rawSiteQ4 "Bras Basah Complex" "1", rawSiteQ4 "Bras Basah Complex" "2"]

/-- A successful association-list lookup returns a stored pair. -/
theorem lookup_mem {α β : Type} [BEq α] [LawfulBEq α] {l : List (α × β)}
    {k : α} {v : β} (h : l.lookup k = some v) : (k, v) ∈ l := by
  induction l with
  | nil => simp [List.lookup] at h
  | cons a t ih =>
    obtain ⟨a1, a2⟩ := a
    rw [List.lookup] at h
    cases hk : k == a1 with
    | false =>
      rw [hk] at h
      exact List.mem_cons_of_mem _ (ih h)
    | true =>
      rw [hk] at h
      simp only [Option.some.injEq] at h
      have hka : k = a1 := eq_of_beq hk
      subst hka
      subst h
      exact List.mem_cons_self _ _

/-- If every stored value satisfies `f`, any lookup result does. -/
theorem lookup_all {α β : Type} [BEq α] (f : β → Bool) (l : List (α × β))
    (h : l.all (fun p => f p.2) = true) (k : α) :
    ((l.lookup k).all f) = true := by
  induction l with
  | nil => simp [List.lookup]
  | cons a t ih =>
    obtain ⟨a1, a2⟩ := a
    rw [List.lookup]
    simp only [List.all_cons, Bool.and_eq_true] at h
    cases hk : k == a1 with
    | false => exact ih h.2
    | true => exact h.1

/-- Every entry of the case table: key and value are non-space, and the
lowercase values are not themselves keys. -/
theorem LOWER_TABLE_facts :
    ∀ pr ∈ LOWER_TABLE, isPySpace pr.1 = false ∧ isPySpace pr.2 = false ∧
      LOWER_TABLE.lookup pr.2 = none := by decide

/-- Lowercasing one character is idempotent. -/
theorem pyLowerChar_idem (c : Char) :
    pyLowerChar (pyLowerChar c) = pyLowerChar c := by
  unfold pyLowerChar
  cases h : LOWER_TABLE.lookup c with
  | none => simp [h]
  | some v =>
    have hv := (LOWER_TABLE_facts _ (lookup_mem h)).2.2
    simp [h, hv]

/-- Lowercasing does not change whether a character is whitespace. -/
theorem isPySpace_pyLowerChar (c : Char) :
    isPySpace (pyLowerChar c) = isPySpace c := by
  unfold pyLowerChar
  cases h : LOWER_TABLE.lookup c with
  | none => simp
  | some v =>
    have hm := lookup_mem h
    have h1 := (LOWER_TABLE_facts _ hm).1
    have h2 := (LOWER_TABLE_facts _ hm).2.1
    simp [h1, h2]

/-- After an initial `dropWhile`, dropping trailing whitespace leaves a list
whose head still fails the predicate, so a second leading drop is a no-op. -/
theorem dropWhile_rdropWhile_dropWhile (p : Char → Bool) (l : List Char) :
    List.dropWhile p (List.rdropWhile p (List.dropWhile p l)) =
      List.rdropWhile p (List.dropWhile p l) := by
  set y := List.dropWhile p l with hy
  have hyy : List.dropWhile p y = y := by
    rw [hy]
    exact List.dropWhile_idempotent _ _
  obtain ⟨t, ht⟩ := List.rdropWhile_prefix (l := y) p
  cases hw : List.rdropWhile p y with
  | nil => simp
  | cons a w =>
    rw [hw] at ht
    have hhead : ¬ p a = true := by
      have := List.dropWhile_eq_self_iff.mp hyy
      have hl : 0 < y.length := by
        rw [← ht]
        simp
      have hget : y.get ⟨0, hl⟩ = a := by
        have : y = a :: (w ++ t) := by rw [← ht]; simp
        simp [this]
      have := this hl
      rwa [hget] at this
    rw [List.dropWhile_cons, if_neg hhead]

/-- Stripping is idempotent. -/
theorem pyStrip_idem (l : PyStr) : pyStrip (pyStrip l) = pyStrip l := by
  unfold pyStrip
  rw [dropWhile_rdropWhile_dropWhile]
  exact List.rdropWhile_idempotent _ _

/-- Lowercasing is idempotent. -/
theorem pyLower_idem (l : PyStr) : pyLower (pyLower l) = pyLower l := by
  unfold pyLower
  rw [List.map_map]
  exact List.map_congr_left fun c _ => pyLowerChar_idem c

/-- Lowercasing commutes with stripping. -/
theorem pyStrip_pyLower (l : PyStr) :
    pyStrip (pyLower l) = pyLower (pyStrip l) := by
  have hp : (isPySpace ∘ pyLowerChar) = isPySpace := by
    funext c
    exact isPySpace_pyLowerChar c
  unfold pyStrip pyLower List.rdropWhile
  rw [List.dropWhile_map, hp, ← List.map_reverse, List.dropWhile_map, hp,
    ← List.map_reverse]

/-- Normalisation (`strip` then `lower`) is idempotent. -/
theorem pyNormalize_idem (l : PyStr) :
    pyNormalize (pyNormalize l) = pyNormalize l := by
  unfold pyNormalize
  rw [pyStrip_pyLower, pyStrip_idem, pyLower_idem]

/-- C7: the boolean-style noise-spike answer is encoded 0 exactly when the
trimmed, case-folded answer is "no", and 1 for every other answer — the
blank answer included; no third value ever occurs. -/
theorem C7_noise_spike_no_asymmetric :
    (∀ s : PyStr, noise_spike s = 0 ↔ pyNormalize s = "no".toList) ∧
    noise_spike [] = 1 ∧
    (∀ s : PyStr, noise_spike s = 0 ∨ noise_spike s = 1) := by
  refine ⟨fun s => ?_, by decide, fun s => ?_⟩
  · by_cases h : pyNormalize s = "no".toList <;> simp [noise_spike, h]
  · by_cases h : pyNormalize s = "no".toList <;> simp [noise_spike, h]
    exact Or.inr h

/-- C8: ordinal encoding is an exact lookup of the trimmed, case-folded text:
it is invariant under re-normalisation (hence under case and
surrounding-whitespace changes), two texts with the same normal form encode
identically, an absent key (empty string included) yields missing, and a
present key yields exactly its stored code — no default, no fuzzy match. -/
theorem C8_encode_normalized_exact_lookup :
    ∀ (m : List (PyStr × ℤ)) (s t : PyStr),
      encode (pyNormalize s) m = encode s m ∧
      (pyNormalize s = pyNormalize t → encode s m = encode t m) ∧
      (m.lookup (pyNormalize s) = none → encode s m = none) ∧
      (∀ code : ℤ, m.lookup (pyNormalize s) = some code →
        encode s m = some code) := by
  intro m s t
  refine ⟨?_, fun h => ?_, fun h => h, fun code h => h⟩
  · unfold encode
    rw [pyNormalize_idem]
  · unfold encode
    rw [h]

/-- Witness for C8 at concrete inputs: `encode " YES ") = encode("yes")` on
the community table, an unknown text encodes to missing, and "maybe" hits
its exact stored code. -/
theorem C8_encode_normalized_exact_lookup_witness :
    encode " YES ".toList COMMUNITY_MAP = encode "yes".toList COMMUNITY_MAP ∧
    encode "zzz".toList COMMUNITY_MAP = none ∧
    encode "maybe".toList COMMUNITY_MAP = some 1 := by
  refine ⟨?_, ?_, ?_⟩
  · exact (C8_encode_normalized_exact_lookup COMMUNITY_MAP " YES ".toList
      "yes".toList).2.1 (by decide)
  · exact (C8_encode_normalized_exact_lookup COMMUNITY_MAP "zzz".toList
      []).2.2.1 (by decide)
  · exact (C8_encode_normalized_exact_lookup COMMUNITY_MAP "maybe".toList
      []).2.2.2 1 (by decide)

/-- C10: with a header row but zero respondent rows the encoder run fails
(at `rows_out[0]`, before the clean CSV is opened for writing) instead of
producing a header-only file; with at least one row it succeeds. -/
theorem C10_empty_input_fails_before_write :
    encoder_main [] = none ∧ (encoder_main [sampleRaw]).isSome = true := by
  constructor
  · rfl
  · rfl

/-- C1 counterexample: a significant Spearman result (rho = 0.8,
p = 0.01 < 0.05) at effective sample size 20 < 30 carries no caveat — the
claim requires the small-sample caveat regardless of significance. -/
theorem C1_cex_significant_small_n_no_caveat :
    (interpret (.fin (4 / 5)) (.fin (1 / 100)) 20).significant = true ∧
    20 < 30 ∧
    (interpret (.fin (4 / 5)) (.fin (1 / 100)) 20).caveat = false := by
  refine ⟨?_, by norm_num, ?_⟩ <;>
    norm_num [interpret, MFloat.lt, MFloat.fin]

/-- C1 amended: the Spearman interpretation attaches its caveat exactly when
the result is not statistically significant (for any rho, p, n — the sample
size never enters the condition), while the Kruskal-Wallis interpretation
attaches its caveat exactly when the total effective n is below 30,
regardless of significance. -/
theorem C1_amended_caveat_conditions :
    (∀ (rho p : MFloat) (n : ℕ),
      (interpret rho p n).caveat = !(interpret rho p n).significant) ∧
    (∀ (p : MFloat) (k n : ℕ),
      (kw_interpret p k n).caveat = decide (n < 30)) := by
  exact ⟨fun rho p n => rfl, fun p k n => rfl⟩

/-- C2 counterexample: raw Q4 text "11" — a numeric value outside the
documented 1-10 range — is stored as 11, not recovered as missing. -/
theorem C2_cex_out_of_range_kept :
    (clean_record 1 (rawQ4 "11")).Q4_noise_rating = some 11 ∧
    ¬((11 : ℤ) ≤ 10) := by
  exact ⟨rfl, by decide⟩

/-- C2 amended: every ordinal code of a clean record is inside its table's
documented range or missing, and the spike flag is 0 or 1; but the two
direct numeric fields (Q4, Q8) carry whatever non-negative integer the digit
string denotes — possibly outside 1-10 — or are missing. -/
theorem C2_amended_field_ranges :
    ∀ (idx : ℕ) (r : RawRecord),
      ((clean_record idx r).age_numeric.all
        fun v => decide (1 ≤ v) && decide (v ≤ 4)) = true ∧
      ((clean_record idx r).residency_numeric.all
        fun v => decide (1 ≤ v) && decide (v ≤ 4)) = true ∧
      ((clean_record idx r).floor_numeric.all
        fun v => decide (1 ≤ v) && decide (v ≤ 3)) = true ∧
      ((clean_record idx r).Q7_concentration.all
        fun v => decide (1 ≤ v) && decide (v ≤ 6)) = true ∧
      ((clean_record idx r).Q10_community.all
        fun v => decide (0 ≤ v) && decide (v ≤ 2)) = true ∧
      ((clean_record idx r).Q11_QoL.all
        fun v => decide (1 ≤ v) && decide (v ≤ 4)) = true ∧
      ((clean_record idx r).Q6_noise_spike = 0 ∨
        (clean_record idx r).Q6_noise_spike = 1) ∧
      ((clean_record idx r).Q4_noise_rating = none ∨
        (clean_record idx r).Q4_noise_rating =
          some ((digitsVal (pyStrip r.q4) : ℤ))) ∧
      ((clean_record idx r).Q8_air_quality = none ∨
        (clean_record idx r).Q8_air_quality =
          some ((digitsVal (pyStrip r.q8) : ℤ))) := by
  intro idx r
  refine ⟨?_, ?_, ?_, ?_, ?_, ?_, ?_, ?_, ?_⟩
  · exact lookup_all _ AGE_MAP (by decide) _
  · exact lookup_all _ DURATION_MAP (by decide) _
  · exact lookup_all _ FLOOR_MAP (by decide) _
  · exact lookup_all _ Q7_MAP (by decide) _
  · exact lookup_all _ COMMUNITY_MAP (by decide) _
  · exact lookup_all _ Q11_MAP (by decide) _
  · by_cases h : pyNormalize (pyStrip r.q6) = "no".toList <;>
      simp [clean_record, noise_spike, h]
    exact Or.inr h
  · by_cases h : py_isdigit (pyStrip r.q4) <;>
      simp [clean_record, q4_encode, h]
  · by_cases h : py_isdigit (pyStrip r.q8) <;>
      simp [clean_record, q4_encode, h]

/-- A digit string starts with a digit. -/
theorem py_isdigit_head {c : Char} {t : PyStr}
    (hd : py_isdigit (c :: t) = true) : '0' ≤ c := by
  simp [py_isdigit] at hd
  exact hd.1.1

/-- On an all-digits string, the claim-side integer parse agrees with the
digit value the code stores. -/
theorem specIntParse_digits (l : PyStr) (hd : py_isdigit l = true) :
    specIntParse l = some ((digitsVal l : ℤ)) := by
  cases l with
  | nil => simp [py_isdigit] at hd
  | cons c t =>
    have h0 : '0' ≤ c := py_isdigit_head hd
    have hm : c ≠ '-' := by
      rintro rfl
      exact absurd h0 (by decide)
    have hp : c ≠ '+' := by
      rintro rfl
      exact absurd h0 (by decide)
    rw [specIntParse.eq_def]
    split
    · rename_i heq
      injection heq with h1 _
      exact absurd h1 hm
    · rename_i heq
      injection heq with h1 _
      exact absurd h1 hp
    · rw [if_pos hd]

/-- C5 amended: the Q4/Q8 field holds the parsed integer exactly when the
stripped raw text is a nonempty unsigned digit string (Python `isdigit`),
in which case it equals the full integer parse; any other text — signed
integer strings included — yields missing. -/
theorem C5_amended_unsigned_digit_guard :
    ∀ (s : PyStr) (n : ℤ),
      q4_encode s = some n ↔
        py_isdigit (pyStrip s) = true ∧ specIntParse (pyStrip s) = some n := by
  intro s n
  simp only [q4_encode]
  by_cases hd : py_isdigit (pyStrip s)
  · rw [if_pos hd]
    constructor
    · intro h
      refine ⟨hd, ?_⟩
      rw [specIntParse_digits _ hd]
      exact h
    · rintro ⟨-, hp⟩
      rw [specIntParse_digits _ hd] at hp
      exact hp
  · rw [if_neg hd]
    simp [hd]

/-- C5 counterexample: the signed integer string "-3" parses as the integer
-3 (so the claim requires the field to be -3), but the code stores
missing, because `"-3".isdigit()` is false. -/
theorem C5_cex_signed_string_missing :
    specIntParse (pyStrip "-3".toList) = some (-3) ∧
    q4_encode "-3".toList = none := by
  exact ⟨rfl, rfl⟩

/-- Ranks of a constant sample are all `(n+1)/2`. -/
theorem ranksL_allEqual (l : List ℚ) (h : allEqual l = true) :
    ranksL l = List.replicate l.length (((l.length : ℚ) + 1) / 2) := by
  cases l with
  | nil => rfl
  | cons a t =>
    have hmem : ∀ x ∈ a :: t, x = a := by
      intro x hx
      rcases List.mem_cons.mp hx with rfl | hx
      · rfl
      · simp only [allEqual, List.all_eq_true, decide_eq_true_eq] at h
        exact h x hx
    have hc1 : (a :: t).countP (fun y => decide (y < a)) = 0 := by
      rw [List.countP_eq_zero]
      intro x hx
      rw [hmem x hx]
      simp
    have hc2 : (a :: t).countP (fun y => decide (y = a)) = (a :: t).length := by
      rw [List.countP_eq_length]
      intro x hx
      rw [hmem x hx]
      simp
    rw [List.eq_replicate_iff]
    refine ⟨by simp [ranksL], ?_⟩
    intro b hb
    obtain ⟨x, hx, rfl⟩ := List.mem_map.mp hb
    rw [hmem x hx]
    unfold rankOf
    rw [hc1, hc2]
    norm_num

/-- A constant sample has zero rank variance term. -/
theorem varTerm_replicate (n : ℕ) (r : ℚ) :
    varTerm (List.replicate n r) = 0 := by
  unfold varTerm
  rw [List.map_replicate, List.sum_replicate, List.sum_replicate,
    List.length_replicate]
  push_cast [nsmul_eq_mul]
  ring

/-- Constant first sample: Spearman returns nan. -/
theorem spearman_rho_const_x (xs ys : List ℚ) (h : allEqual xs = true) :
    spearman_rho xs ys = .nan := by
  simp only [spearman_rho]
  have hv : varTerm (ranksL xs) = 0 := by
    rw [ranksL_allEqual xs h]
    exact varTerm_replicate _ _
  rw [hv, zero_mul, if_pos rfl]

/-- Constant second sample: Spearman returns nan. -/
theorem spearman_rho_const_y (xs ys : List ℚ) (h : allEqual ys = true) :
    spearman_rho xs ys = .nan := by
  simp only [spearman_rho]
  have hv : varTerm (ranksL ys) = 0 := by
    rw [ranksL_allEqual ys h]
    exact varTerm_replicate _ _
  rw [hv, mul_zero, if_pos rfl]

/-- Fewer than three pairs: the t-approximation p-value is nan. -/
theorem p_spearman_small (pv : ℚ → ℚ → ℕ → ℚ) (rho : MFloat) (n : ℕ)
    (h : n ≤ 2) : p_spearman pv rho n = .nan := by
  cases rho with
  | nan => rfl
  | sdiv s d => simp [p_spearman, h]

/-- C4 amended: the correlation analysis has no insufficient-data branch.
On a degenerate input (fewer than 3 effective pairs, or a constant or
entirely missing field) it still emits the ordinary numeric-format report:
the p-value is NaN, interpreted as "not statistically significant" with the
small-n caveat — never the distinct insufficient-data outcome. -/
theorem C4_amended_no_insufficient_branch :
    ∀ (pv : ℚ → ℚ → ℕ → ℚ) (tbl : List CleanRecord)
      (gx gy : CleanRecord → Option ℤ),
      ((spearman_sub tbl gx gy).length < 3 ∨
        allEqual ((spearman_sub tbl gx gy).map Prod.fst) = true ∨
        allEqual ((spearman_sub tbl gx gy).map Prod.snd) = true) →
      ∃ (rho : MFloat) (itp : Interp),
        spearman_analysis pv tbl gx gy =
          .report rho .nan (spearman_sub tbl gx gy).length itp ∧
        itp.significant = false ∧ itp.caveat = true ∧
        (spearman_analysis pv tbl gx gy).isInsufficient = false := by
  intro pv tbl gx gy h
  have hp : p_spearman pv
      (spearman_rho ((spearman_sub tbl gx gy).map Prod.fst)
        ((spearman_sub tbl gx gy).map Prod.snd))
      (spearman_sub tbl gx gy).length = .nan := by
    rcases h with h | h | h
    · exact p_spearman_small _ _ _ (by omega)
    · rw [spearman_rho_const_x _ _ h]
      rfl
    · rw [spearman_rho_const_y _ _ h]
      rfl
  have heq : spearman_analysis pv tbl gx gy =
      .report (spearman_rho ((spearman_sub tbl gx gy).map Prod.fst)
          ((spearman_sub tbl gx gy).map Prod.snd))
        .nan (spearman_sub tbl gx gy).length
        (interpret (spearman_rho ((spearman_sub tbl gx gy).map Prod.fst)
          ((spearman_sub tbl gx gy).map Prod.snd)) .nan
          (spearman_sub tbl gx gy).length) := by
    simp only [spearman_analysis]
    rw [hp]
  refine ⟨_, _, heq, rfl, rfl, ?_⟩
  rw [heq]
  rfl

/-- Witness for C4 at the all-missing table: zero effective pairs. -/
theorem C4_amended_no_insufficient_branch_witness :
    ∃ (rho : MFloat) (itp : Interp),
      spearman_analysis pv0 T_allMissing (fun r => r.Q4_noise_rating)
          (fun r => r.Q7_concentration) =
        .report rho .nan
          (spearman_sub T_allMissing (fun r => r.Q4_noise_rating)
            (fun r => r.Q7_concentration)).length itp ∧
      itp.significant = false ∧ itp.caveat = true ∧
      (spearman_analysis pv0 T_allMissing (fun r => r.Q4_noise_rating)
        (fun r => r.Q7_concentration)).isInsufficient = false := by
  exact C4_amended_no_insufficient_branch pv0 T_allMissing _ _
    (Or.inl (by decide))

/-- C4 counterexample: with the Q4 field entirely missing (effective n = 0,
below 3) the code still reports a numeric-format outcome — NaN coefficient
read as "weak negative correlation, not statistically significant" — rather
than the distinct insufficient-data outcome the claim requires. -/
theorem C4_cex_all_missing_gets_numeric_report :
    spearman_analysis pv0 T_allMissing (fun r => r.Q4_noise_rating)
        (fun r => r.Q7_concentration) =
      .report .nan .nan 0
        { strength := "weak", direction := "negative",
          significant := false, caveat := true } ∧
    (spearman_analysis pv0 T_allMissing (fun r => r.Q4_noise_rating)
      (fun r => r.Q7_concentration)).isInsufficient = false ∧
    (0 : ℕ) < 3 := by
  have hsub : spearman_sub T_allMissing (fun r => r.Q4_noise_rating)
      (fun r => r.Q7_concentration) = [] := by decide
  have hrho : spearman_rho ([] : List ℚ) ([] : List ℚ) = .nan := by
    simp only [spearman_rho]
    norm_num [ranksL, varTerm]
  refine ⟨?_, ?_, by decide⟩
  · simp only [spearman_analysis, hsub]
    rw [List.map_nil, List.map_nil, hrho]
    rfl
  · simp only [SpearOutcome.isInsufficient, spearman_analysis]

/-- C6 amended: each group holds the outcome values of the records in that
category with non-missing outcome, but the empty-group drop exists only for
the floor-level test; the two site-based tests always pass all four fixed
site groups — empty ones included — to `stats.kruskal`, and no test checks
that at least two non-empty groups remain. -/
theorem C6_amended_empty_drop_only_floor :
    ∀ tbl : List CleanRecord,
      ((kw_input_floor tbl).all fun g => !g.isEmpty) = true ∧
      (kw_input_siteNoise tbl).length = 4 ∧
      (kw_input_siteQoL tbl).length = 4 ∧
      (∀ pr ∈ site_noise_groups tbl,
        pr.2 = kw_group tbl (fun r => r.site) (fun r => r.Q4_noise_rating)
          pr.1) := by
  intro tbl
  refine ⟨?_, ?_, ?_, ?_⟩
  · rw [List.all_eq_true]
    intro g hg
    obtain ⟨pr, hpr, rfl⟩ := List.mem_map.mp hg
    exact (List.mem_filter.mp hpr).2
  · simp [kw_input_siteNoise, site_noise_groups, site_order]
  · simp [kw_input_siteQoL, site_qol_groups, site_order]
  · intro pr hpr
    obtain ⟨sname, hs, rfl⟩ := List.mem_map.mp hpr
    rfl

/-- C6 counterexample: on a table whose records cover a single site, the
site × Q4 argument list still contains the empty groups of the other three
sites (so empty groups are not dropped), only one non-empty group remains,
and `stats.kruskal` is still invoked on that list. -/
theorem C6_cex_empty_site_groups_passed :
    [] ∈ kw_input_siteNoise T_oneSite ∧
    ((kw_input_siteNoise T_oneSite).filter fun g => !g.isEmpty).length = 1 ∧
    (stats_kruskal (kw_input_siteNoise T_oneSite)).isSome = true := by
  refine ⟨by decide, by decide, by decide⟩

set_option maxHeartbeats 2000000 in
/-- C3: the Mann-Whitney post-hoc loop is not gated on the omnibus result.
On the flat table every site group is {1, 2}: the Kruskal-Wallis statistic
is exactly 0, so its p-value is chi2.sf(0, 3) = 1 — far from significant —
yet the pairwise tests are performed for all six site pairs (the only guard
in the code is the two-observations-per-group minimum). -/
theorem C3_posthoc_runs_without_significance :
    stats_kruskal (kw_input_siteNoise T_flat) = some (.fin 0) ∧
    kw_p csf0 (.fin 0) 3 = .fin 1 ∧
    MFloat.lt (.fin 1) (1 / 20) = false ∧
    posthoc_performed (site_noise_groups T_flat) = combos site_order ∧
    (combos site_order).length = 6 := by
  have hH : kruskal_H [[1, 2], [1, 2], [1, 2], [1, 2]] = .fin 0 := by
    have h1 : rankOf [(1 : ℚ), 2, 1, 2, 1, 2, 1, 2] 1 = 5 / 2 := by
      norm_num [rankOf, List.countP, List.countP.go]
    have h2 : rankOf [(1 : ℚ), 2, 1, 2, 1, 2, 1, 2] 2 = 13 / 2 := by
      norm_num [rankOf, List.countP, List.countP.go]
    have ht : tieCorrection [(1 : ℚ), 2, 1, 2, 1, 2, 1, 2] = 16 / 21 := by
      simp only [tieCorrection]
      norm_num [List.dedup, List.countP, List.countP.go]
    simp only [kruskal_H]
    norm_num [h1, h2, ht, MFloat.fin]
  have hg : kw_input_siteNoise T_flat = [[1, 2], [1, 2], [1, 2], [1, 2]] := by
    decide
  refine ⟨?_, ?_, ?_, by decide, by decide⟩
  · rw [hg]
    simp only [stats_kruskal]
    rw [if_neg (by decide), hH]
  · norm_num [kw_p, MFloat.fin]
  · norm_num [MFloat.lt, MFloat.fin]

/-- C9: the contingency routine branches exactly on the table shape: a 2×2
table gets Fisher's exact test with its exact p-value and odds ratio; any
other shape gets the χ² test computed on the same table, flagged as an
approximation, with no odds ratio reported. -/
theorem C9_fisher_iff_two_by_two :
    ∀ ct : List (List ℕ),
      (ctRows ct = 2 ∧ ctCols ct = 2 →
        run_fishers ct = .fisher (odds_of ct) (fisher_p ct)) ∧
      (¬(ctRows ct = 2 ∧ ctCols ct = 2) →
        run_fishers ct =
          .chiApprox (chisq_stat ct) ((ctRows ct - 1) * (ctCols ct - 1))
            true) ∧
      ((run_fishers ct).reportsOdds = true ↔ ctRows ct = 2 ∧ ctCols ct = 2) ∧
      ((run_fishers ct).isFlaggedApprox = true ↔
        ¬(ctRows ct = 2 ∧ ctCols ct = 2)) := by
  intro ct
  by_cases h : ctRows ct = 2 ∧ ctCols ct = 2 <;>
    simp [run_fishers, h, CtResult.reportsOdds, CtResult.isFlaggedApprox]

/-- Witness for C9: the perfectly associated 2×2 table takes the Fisher
branch; the 3×3 identity-like table takes the flagged χ² branch with
4 degrees of freedom. -/
theorem C9_fisher_iff_two_by_two_witness :
    run_fishers [[5, 0], [0, 5]] =
      .fisher (odds_of [[5, 0], [0, 5]]) (fisher_p [[5, 0], [0, 5]]) ∧
    run_fishers [[2, 0, 0], [0, 2, 0], [0, 0, 2]] =
      .chiApprox (chisq_stat [[2, 0, 0], [0, 2, 0], [0, 0, 2]]) 4 true := by
  constructor
  · exact (C9_fisher_iff_two_by_two [[5, 0], [0, 5]]).1 (by decide)
  · exact (C9_fisher_iff_two_by_two [[2, 0, 0], [0, 2, 0], [0, 0, 2]]).2.1
      (by decide)
